import Mathlib

/-!
Verification of the message.ly user model (src/models/user.js).

The relational store is embedded as an explicit state: a list of user rows
and a list of message rows, plus the clock value that `current_timestamp`
reads.  Each static method of the `User` class becomes a function from the
state to `Except DBError (result × state)`: a SQL SELECT reads the lists, an
INSERT or UPDATE returns a new state, and a thrown `ExpressError` becomes the
`.expressError` constructor.  Row order in a table models the store-defined
result order of an unsorted SQL query.

Timestamps are natural numbers.  The external bcrypt library is modelled by
an injective tagging function: `bcrypt.hash` prepends a fixed tag to the
plaintext and `bcrypt.compare p h` checks `h = bcryptHash p`, which captures
the two facts the code relies on (compare succeeds exactly on the original
plaintext, and the hash is never equal to the plaintext).
-/

namespace Messagely

/-- A row of the `users` table:
`users(username PK, password, first_name, last_name, phone, join_at, last_login_at)`.
The `password` column stores the bcrypt hash. -/
structure UserRow where
  username : String
  password : String
  first_name : String
  last_name : String
  phone : String
  join_at : Nat
  last_login_at : Nat
deriving Repr, DecidableEq

/-- A row of the `messages` table:
`messages(id PK, from_username FK, to_username FK, body, sent_at, read_at)`. -/
structure MessageRow where
  id : Nat
  from_username : String
  to_username : String
  body : String
  sent_at : Nat
  read_at : Option Nat
deriving Repr, DecidableEq

/-- The durable store plus the clock read by SQL `current_timestamp`. -/
structure DBState where
  users : List UserRow
  messages : List MessageRow
  now : Nat
deriving Repr, DecidableEq

/-- Errors surfaced by a call: an application-thrown `ExpressError`
(message and HTTP status), or the unique-key violation raised by the store
itself when an INSERT collides on the primary key. -/
inductive DBError where
  | expressError (message : String) (status : Nat)
  | uniqueViolation
deriving Repr, DecidableEq

/-- Model of the external bcrypt library: `bcrypt.hash(password, workFactor)`.
The tag makes the hash injective in the plaintext and never equal to it. -/
def bcryptHash (password : String) : String :=
  "bcrypt$" ++ password

/-- Model of `bcrypt.compare(password, hash)`. -/
def bcryptCompare (password hash : String) : Bool :=
  hash == bcryptHash password

/-- The value returned by `User.register`:
`RETURNING username, password, first_name, last_name, phone`. -/
structure RegisterResult where
  username : String
  password : String
  first_name : String
  last_name : String
  phone : String
deriving Repr, DecidableEq

/-- The argument object of `User.register`. -/
structure RegisterInput where
  username : String
  password : String
  first_name : String
  last_name : String
  phone : String
deriving Repr, DecidableEq

/-- The row INSERTed by `User.register`: the hashed password and
`join_at = last_login_at = current_timestamp`. -/
def newUserRow (inp : RegisterInput) (σ : DBState) : UserRow :=
  { username := inp.username, password := bcryptHash inp.password,
    first_name := inp.first_name, last_name := inp.last_name,
    phone := inp.phone, join_at := σ.now, last_login_at := σ.now }

/-- Embeds `User.register({username, password, first_name, last_name, phone})`:
hashes the password, INSERTs a row with
`join_at = last_login_at = current_timestamp`, and returns the RETURNING
columns `username, password, first_name, last_name, phone` of the inserted
row.  The store raises a unique-key violation if the username exists. -/
def register (inp : RegisterInput) (σ : DBState) :
    Except DBError (RegisterResult × DBState) :=
  if σ.users.any (fun u => u.username == inp.username) then
    .error .uniqueViolation
  else
    .ok ({ username := inp.username, password := bcryptHash inp.password,
           first_name := inp.first_name, last_name := inp.last_name,
           phone := inp.phone },
         { σ with users := σ.users ++ [newUserRow inp σ] })

/-- Embeds `User.authenticate(username, password)`: SELECTs the row by username and
takes `rows[0]`.  The JS function returns the boolean `true` on a bcrypt
match and otherwise falls off the end, returning `undefined`; the result is
therefore `Option Bool`, with `none` standing for `undefined`. -/
def authenticate (username password : String) (σ : DBState) :
    Except DBError (Option Bool × DBState) :=
  match (σ.users.filter (fun u => u.username == username)).head? with
  | some user =>
      if bcryptCompare password user.password then .ok (some true, σ)
      else .ok (none, σ)
  | none => .ok (none, σ)

/-- The value returned by `User.updateLoginTimestamp`:
`RETURNING username, last_login_at`. -/
structure LoginStamp where
  username : String
  last_login_at : Nat
deriving Repr, DecidableEq

/-- The `users` table after the UPDATE of `updateLoginTimestamp`: the
matching row gets `last_login_at = current_timestamp`, every other row is
unchanged. -/
def updatedUsers (username : String) (σ : DBState) : List UserRow :=
  σ.users.map (fun u =>
    if u.username == username then { u with last_login_at := σ.now } else u)

/-- Embeds `User.updateLoginTimestamp(username)`: UPDATEs `last_login_at` to
`current_timestamp` for the matching row; `rows[0]` of the RETURNING set is
the updated row, and its absence means no row matched, in which case the
code throws `ExpressError(No such user, 404)`. -/
def updateLoginTimestamp (username : String) (σ : DBState) :
    Except DBError (LoginStamp × DBState) :=
  match ((updatedUsers username σ).filter
      (fun u => u.username == username)).head? with
  | none => .error (.expressError ("No such user: " ++ username) 404)
  | some u =>
      .ok ({ username := u.username, last_login_at := u.last_login_at },
           { σ with users := updatedUsers username σ })

/-- The public profile shape `{username, first_name, last_name, phone}`. -/
structure PublicProfile where
  username : String
  first_name : String
  last_name : String
  phone : String
deriving Repr, DecidableEq

/-- The projection SELECTed by `User.all` and by the joins. -/
def publicProfileOf (u : UserRow) : PublicProfile :=
  { username := u.username, first_name := u.first_name,
    last_name := u.last_name, phone := u.phone }

/-- JS truthiness of `result.rows`: the driver always yields an array, and
an array is an object, hence truthy even when empty, so `!rows` is always
false. -/
def jsArrayFalsy {α : Type} (_ : List α) : Bool := false

/-- Embeds `User.all()`: SELECTs the public columns of every user.  The guard
`if (!user) throw ExpressError(No users, 404)` tests the rows array itself,
so it never fires. -/
def all (σ : DBState) : Except DBError (List PublicProfile × DBState) :=
  let rows := σ.users.map publicProfileOf
  if jsArrayFalsy rows then .error (.expressError "No users" 404)
  else .ok (rows, σ)

/-- The value returned by `User.get`: every column except `password`. -/
structure FullProfile where
  username : String
  first_name : String
  last_name : String
  phone : String
  join_at : Nat
  last_login_at : Nat
deriving Repr, DecidableEq

/-- Embeds `User.get(username)`: SELECTs the row by username; throws
`ExpressError(No such user, 404)` when `rows[0]` is absent. -/
def get (username : String) (σ : DBState) :
    Except DBError (FullProfile × DBState) :=
  match (σ.users.filter (fun u => u.username == username)).head? with
  | none => .error (.expressError ("No such user: " ++ username) 404)
  | some u =>
      .ok ({ username := u.username, first_name := u.first_name,
             last_name := u.last_name, phone := u.phone,
             join_at := u.join_at, last_login_at := u.last_login_at }, σ)

/-- A flat row of the join query in `messagesFrom` and `messagesTo`:
`SELECT m.id, m.body, m.sent_at, m.read_at` plus the four public columns of
the counterparty user. -/
structure QueryRow where
  id : Nat
  body : String
  sent_at : Nat
  read_at : Option Nat
  username : String
  first_name : String
  last_name : String
  phone : String
deriving Repr, DecidableEq

/-- Builds the SELECT row of `messagesFrom` for message `m` joined with the
recipient row `t`. -/
def mkFromRow (m : MessageRow) (t : UserRow) : QueryRow :=
  { id := m.id, body := m.body, sent_at := m.sent_at, read_at := m.read_at,
    username := t.username, first_name := t.first_name,
    last_name := t.last_name, phone := t.phone }

/-- Builds the SELECT row of `messagesTo` for message `m` joined with the
sender row `f`. -/
def mkToRow (m : MessageRow) (f : UserRow) : QueryRow :=
  { id := m.id, body := m.body, sent_at := m.sent_at, read_at := m.read_at,
    username := f.username, first_name := f.first_name,
    last_name := f.last_name, phone := f.phone }

/-- The row set of the `messagesFrom` query:
`FROM messages m JOIN users f ON m.from_username = f.username
JOIN users t ON m.to_username = t.username WHERE m.from_username = $1`,
selecting the recipient columns. -/
def messagesFromRows (username : String) (σ : DBState) : List QueryRow :=
  (σ.messages.filter (fun m => m.from_username == username)).flatMap (fun m =>
    (σ.users.filter (fun f => f.username == m.from_username)).flatMap (fun _f =>
      (σ.users.filter (fun t => t.username == m.to_username)).map (fun t =>
        mkFromRow m t)))

/-- The row set of the `messagesTo` query: same joins,
`WHERE m.to_username = $1`, selecting the sender columns. -/
def messagesToRows (username : String) (σ : DBState) : List QueryRow :=
  (σ.messages.filter (fun m => m.to_username == username)).flatMap (fun m =>
    (σ.users.filter (fun f => f.username == m.from_username)).flatMap (fun f =>
      (σ.users.filter (fun t => t.username == m.to_username)).map (fun _t =>
        mkToRow m f)))

/-- An element of the `messagesFrom` result:
`{id, body, sent_at, read_at, to_user}`. -/
structure SentMessage where
  id : Nat
  body : String
  sent_at : Nat
  read_at : Option Nat
  to_user : PublicProfile
deriving Repr, DecidableEq

/-- An element of the `messagesTo` result:
`{id, body, sent_at, read_at, from_user}`. -/
structure ReceivedMessage where
  id : Nat
  body : String
  sent_at : Nat
  read_at : Option Nat
  from_user : PublicProfile
deriving Repr, DecidableEq

/-- The loop body of `messagesFrom`: nests the counterparty columns under
`to_user`. -/
def sentOfRow (r : QueryRow) : SentMessage :=
  { id := r.id, body := r.body, sent_at := r.sent_at, read_at := r.read_at,
    to_user := { username := r.username, first_name := r.first_name,
                 last_name := r.last_name, phone := r.phone } }

/-- The loop body of `messagesTo`: nests the counterparty columns under
`from_user`. -/
def receivedOfRow (r : QueryRow) : ReceivedMessage :=
  { id := r.id, body := r.body, sent_at := r.sent_at, read_at := r.read_at,
    from_user := { username := r.username, first_name := r.first_name,
                   last_name := r.last_name, phone := r.phone } }

/-- Embeds `User.messagesFrom(username)`: runs the join query; `messages[0]` absent
means the row set is empty and the code throws
`ExpressError(No messages from this user, 404)`; otherwise the loop maps
each flat row to the nested shape. -/
def messagesFrom (username : String) (σ : DBState) :
    Except DBError (List SentMessage × DBState) :=
  match (messagesFromRows username σ).head? with
  | none =>
      .error (.expressError ("No messages from this user: " ++ username) 404)
  | some _ => .ok ((messagesFromRows username σ).map sentOfRow, σ)

/-- Embeds `User.messagesTo(username)`: symmetric to `messagesFrom`, throwing
`ExpressError(No messages to this user, 404)` on an empty row set. -/
def messagesTo (username : String) (σ : DBState) :
    Except DBError (List ReceivedMessage × DBState) :=
  match (messagesToRows username σ).head? with
  | none =>
      .error (.expressError ("No messages to this user: " ++ username) 404)
  | some _ => .ok ((messagesToRows username σ).map receivedOfRow, σ)

/-- The store state after a call: the new state on success, the unchanged
state when the call threw. -/
def stateAfter {α : Type} (r : Except DBError (α × DBState)) (σ : DBState) :
    DBState :=
  match r with
  | .ok (_, σ2) => σ2
  | .error _ => σ

/-- Foreign-key invariant of the `messages` table: both participant
usernames reference existing user rows. -/
def fkOk (σ : DBState) : Prop :=
  ∀ m ∈ σ.messages,
    (∃ f ∈ σ.users, f.username = m.from_username) ∧
    (∃ t ∈ σ.users, t.username = m.to_username)

instance (σ : DBState) : Decidable (fkOk σ) := by
  unfold fkOk; infer_instance

/-! Concrete sample stores, used to instantiate the theorems below on
explicit inputs. -/

/-- Sample user row for alice (last login at time 3). -/
def aliceRow : UserRow :=
  { username := "alice", password := bcryptHash "secret1",
    first_name := "Alice", last_name := "Ames", phone := "555-0001",
    join_at := 1, last_login_at := 3 }

/-- Sample user row for bob. -/
def bobRow : UserRow :=
  { username := "bob", password := bcryptHash "secret2",
    first_name := "Bob", last_name := "Burke", phone := "555-0002",
    join_at := 2, last_login_at := 2 }

/-- Sample message alice sent to bob. -/
def msg1 : MessageRow :=
  { id := 7, from_username := "alice", to_username := "bob", body := "hi",
    sent_at := 4, read_at := none }

/-- Sample store: alice and bob, one message alice to bob, clock at 5. -/
def sampleState : DBState :=
  { users := [aliceRow, bobRow], messages := [msg1], now := 5 }

/-- A store with no rows at all. -/
def emptyState : DBState := { users := [], messages := [], now := 0 }

/-- Registration input whose username and password are both empty. -/
def emptyInput : RegisterInput :=
  { username := "", password := "", first_name := "", last_name := "",
    phone := "" }

/-- The user row created by registering `emptyInput` on `emptyState`. -/
def emptyRegRow : UserRow :=
  { username := "", password := bcryptHash "", first_name := "",
    last_name := "", phone := "", join_at := 0, last_login_at := 0 }

/-- The value returned by registering `emptyInput` on `emptyState`. -/
def emptyRegResult : RegisterResult :=
  { username := "", password := bcryptHash "", first_name := "",
    last_name := "", phone := "" }

/-- The store after registering `emptyInput` on `emptyState`. -/
def emptyRegState : DBState :=
  { users := [emptyRegRow], messages := [], now := 0 }

/-- Registration input for carol. -/
def carolInput : RegisterInput :=
  { username := "carol", password := "pw3", first_name := "Carol",
    last_name := "Cole", phone := "555-0003" }

/-- The user row created by registering carol on `sampleState`. -/
def carolRow : UserRow :=
  { username := "carol", password := bcryptHash "pw3", first_name := "Carol",
    last_name := "Cole", phone := "555-0003", join_at := 5,
    last_login_at := 5 }

/-- The value returned by registering carol on `sampleState`. -/
def carolResult : RegisterResult :=
  { username := "carol", password := bcryptHash "pw3", first_name := "Carol",
    last_name := "Cole", phone := "555-0003" }

/-- The store after registering carol on `sampleState`. -/
def sampleStateWithCarol : DBState :=
  { users := [aliceRow, bobRow, carolRow], messages := [msg1], now := 5 }

/-- The state `sampleState` reaches after `updateLoginTimestamp` for alice. -/
def sampleStateTouched : DBState :=
  { users := [{ aliceRow with last_login_at := 5 }, bobRow],
    messages := [msg1], now := 5 }

/-! Helper lemmas about the embedded operations. -/

/-- The bcrypt hash of a password is never the password itself. -/
theorem bcryptHash_ne (p : String) : bcryptHash p ≠ p := by
  intro h
  have hlen := congrArg String.length h
  rw [bcryptHash, String.length_append] at hlen
  have h7 : ("bcrypt$" : String).length = 7 := rfl
  rw [h7] at hlen
  omega

/-- Under the foreign-key invariant, the join of `messagesFrom` drops no
message: its row set is empty exactly when no stored message has the given
sender. -/
theorem messagesFromRows_nil_iff (u : String) (σ : DBState) (hfk : fkOk σ) :
    messagesFromRows u σ = [] ↔
      σ.messages.filter (fun m => m.from_username == u) = [] := by
  unfold messagesFromRows
  rw [List.flatMap_eq_nil_iff]
  constructor
  · intro h
    rw [List.filter_eq_nil_iff]
    intro m hm hmu
    have h2 := h m (List.mem_filter.mpr ⟨hm, hmu⟩)
    rw [List.flatMap_eq_nil_iff] at h2
    obtain ⟨⟨f, hfm, hfe⟩, ⟨t, htm, hte⟩⟩ := hfk m hm
    have h3 := h2 f (List.mem_filter.mpr ⟨hfm, by simp [hfe]⟩)
    rw [List.map_eq_nil_iff, List.filter_eq_nil_iff] at h3
    exact h3 t htm (by simp [hte])
  · intro h m hm
    rw [h] at hm
    exact absurd hm (List.not_mem_nil m)

/-- Symmetric to `messagesFromRows_nil_iff` for the recipient side. -/
theorem messagesToRows_nil_iff (u : String) (σ : DBState) (hfk : fkOk σ) :
    messagesToRows u σ = [] ↔
      σ.messages.filter (fun m => m.to_username == u) = [] := by
  unfold messagesToRows
  rw [List.flatMap_eq_nil_iff]
  constructor
  · intro h
    rw [List.filter_eq_nil_iff]
    intro m hm hmu
    have h2 := h m (List.mem_filter.mpr ⟨hm, hmu⟩)
    rw [List.flatMap_eq_nil_iff] at h2
    obtain ⟨⟨f, hfm, hfe⟩, ⟨t, htm, hte⟩⟩ := hfk m hm
    have h3 := h2 f (List.mem_filter.mpr ⟨hfm, by simp [hfe]⟩)
    rw [List.map_eq_nil_iff, List.filter_eq_nil_iff] at h3
    exact h3 t htm (by simp [hte])
  · intro h m hm
    rw [h] at hm
    exact absurd hm (List.not_mem_nil m)

/-- The join row built from a stored message and its recipient row is in
the `messagesFrom` row set of the sender. -/
theorem mkFromRow_mem (σ : DBState) (m : MessageRow) (f t : UserRow)
    (hm : m ∈ σ.messages) (hf : f ∈ σ.users) (ht : t ∈ σ.users)
    (hmf : m.from_username = f.username) (hmt : m.to_username = t.username) :
    mkFromRow m t ∈ messagesFromRows m.from_username σ := by
  unfold messagesFromRows
  rw [List.mem_flatMap]
  refine ⟨m, List.mem_filter.mpr ⟨hm, by simp⟩, ?_⟩
  rw [List.mem_flatMap]
  refine ⟨f, List.mem_filter.mpr ⟨hf, by simp [hmf]⟩, ?_⟩
  rw [List.mem_map]
  exact ⟨t, List.mem_filter.mpr ⟨ht, by simp [hmt]⟩, rfl⟩

/-- The join row built from a stored message and its sender row is in the
`messagesTo` row set of the recipient. -/
theorem mkToRow_mem (σ : DBState) (m : MessageRow) (f t : UserRow)
    (hm : m ∈ σ.messages) (hf : f ∈ σ.users) (ht : t ∈ σ.users)
    (hmf : m.from_username = f.username) (hmt : m.to_username = t.username) :
    mkToRow m f ∈ messagesToRows m.to_username σ := by
  unfold messagesToRows
  rw [List.mem_flatMap]
  refine ⟨m, List.mem_filter.mpr ⟨hm, by simp⟩, ?_⟩
  rw [List.mem_flatMap]
  refine ⟨f, List.mem_filter.mpr ⟨hf, by simp [hmf]⟩, ?_⟩
  rw [List.mem_map]
  exact ⟨t, List.mem_filter.mpr ⟨ht, by simp [hmt]⟩, rfl⟩

/-- Every row of the `messagesFrom` row set comes from a stored message
with the given sender and carries the id of that message. -/
theorem mem_messagesFromRows_elim {r : QueryRow} {u : String} {σ : DBState}
    (h : r ∈ messagesFromRows u σ) :
    ∃ m ∈ σ.messages, m.from_username = u ∧ r.id = m.id := by
  unfold messagesFromRows at h
  rw [List.mem_flatMap] at h
  obtain ⟨m, hm, h2⟩ := h
  rw [List.mem_flatMap] at h2
  obtain ⟨f, _, h3⟩ := h2
  rw [List.mem_map] at h3
  obtain ⟨t, _, rfl⟩ := h3
  have hm2 := List.mem_filter.mp hm
  exact ⟨m, hm2.1, by simpa using hm2.2, rfl⟩

/-- Every row of the `messagesTo` row set comes from a stored message with
the given recipient and carries the id of that message. -/
theorem mem_messagesToRows_elim {r : QueryRow} {u : String} {σ : DBState}
    (h : r ∈ messagesToRows u σ) :
    ∃ m ∈ σ.messages, m.to_username = u ∧ r.id = m.id := by
  unfold messagesToRows at h
  rw [List.mem_flatMap] at h
  obtain ⟨m, hm, h2⟩ := h
  rw [List.mem_flatMap] at h2
  obtain ⟨f, _, h3⟩ := h2
  rw [List.mem_map] at h3
  obtain ⟨t, _, rfl⟩ := h3
  have hm2 := List.mem_filter.mp hm
  exact ⟨m, hm2.1, by simpa using hm2.2, rfl⟩

/-- The function `messagesFrom` throws its 404 exactly when its row set is empty. -/
theorem messagesFrom_error_iff (u : String) (σ : DBState) :
    messagesFrom u σ =
        .error (.expressError ("No messages from this user: " ++ u) 404) ↔
      messagesFromRows u σ = [] := by
  unfold messagesFrom
  cases h : (messagesFromRows u σ).head? with
  | none => simp [List.head?_eq_none_iff.mp h]
  | some r =>
      have hne : messagesFromRows u σ ≠ [] := by
        intro hnil
        rw [hnil] at h
        exact absurd h (by simp)
      simp [hne]

/-- The function `messagesTo` throws its 404 exactly when its row set is empty. -/
theorem messagesTo_error_iff (u : String) (σ : DBState) :
    messagesTo u σ =
        .error (.expressError ("No messages to this user: " ++ u) 404) ↔
      messagesToRows u σ = [] := by
  unfold messagesTo
  cases h : (messagesToRows u σ).head? with
  | none => simp [List.head?_eq_none_iff.mp h]
  | some r =>
      have hne : messagesToRows u σ ≠ [] := by
        intro hnil
        rw [hnil] at h
        exact absurd h (by simp)
      simp [hne]

/-- On a nonempty row set, `messagesFrom` returns the mapped rows and
leaves the state unchanged. -/
theorem messagesFrom_ok_of_ne_nil {u : String} {σ : DBState}
    (h : messagesFromRows u σ ≠ []) :
    messagesFrom u σ = .ok ((messagesFromRows u σ).map sentOfRow, σ) := by
  unfold messagesFrom
  cases hh : (messagesFromRows u σ).head? with
  | none => exact absurd (List.head?_eq_none_iff.mp hh) h
  | some r => rfl

/-- On a nonempty row set, `messagesTo` returns the mapped rows and leaves
the state unchanged. -/
theorem messagesTo_ok_of_ne_nil {u : String} {σ : DBState}
    (h : messagesToRows u σ ≠ []) :
    messagesTo u σ = .ok ((messagesToRows u σ).map receivedOfRow, σ) := by
  unfold messagesTo
  cases hh : (messagesToRows u σ).head? with
  | none => exact absurd (List.head?_eq_none_iff.mp hh) h
  | some r => rfl

/-- Any successful `messagesFrom` result is the mapped row set with the
state unchanged. -/
theorem messagesFrom_ok_elim {u : String} {σ σ2 : DBState}
    {l : List SentMessage} (h : messagesFrom u σ = .ok (l, σ2)) :
    l = (messagesFromRows u σ).map sentOfRow ∧ σ2 = σ := by
  unfold messagesFrom at h
  cases hh : (messagesFromRows u σ).head? with
  | none => rw [hh] at h; exact absurd h (by simp)
  | some r =>
      rw [hh] at h
      have h2 := h
      simp only [Except.ok.injEq, Prod.mk.injEq] at h2
      exact ⟨h2.1.symm, h2.2.symm⟩

/-- Any successful `messagesTo` result is the mapped row set with the state
unchanged. -/
theorem messagesTo_ok_elim {u : String} {σ σ2 : DBState}
    {l : List ReceivedMessage} (h : messagesTo u σ = .ok (l, σ2)) :
    l = (messagesToRows u σ).map receivedOfRow ∧ σ2 = σ := by
  unfold messagesTo at h
  cases hh : (messagesToRows u σ).head? with
  | none => rw [hh] at h; exact absurd h (by simp)
  | some r =>
      rw [hh] at h
      have h2 := h
      simp only [Except.ok.injEq, Prod.mk.injEq] at h2
      exact ⟨h2.1.symm, h2.2.symm⟩

/-- Filtering the updated table for the touched username is the same as
updating the filtered rows of the original table. -/
theorem updatedUsers_filter (username : String) (σ : DBState) :
    (updatedUsers username σ).filter (fun u => u.username == username) =
      (σ.users.filter (fun u => u.username == username)).map
        (fun u => { u with last_login_at := σ.now }) := by
  unfold updatedUsers
  rw [List.filter_map]
  have hp : ((fun u : UserRow => u.username == username) ∘
      (fun u : UserRow =>
        if u.username == username then { u with last_login_at := σ.now }
        else u)) = fun u : UserRow => u.username == username := by
    funext u
    simp only [Function.comp_apply]
    split <;> rfl
  rw [hp]
  apply List.map_congr_left
  intro u hu
  have h2 := (List.mem_filter.mp hu).2
  simp [h2]

/-- The function `updateLoginTimestamp` rewritten over the original table: absence of a
matching row throws the 404, otherwise the stamp carries the clock value
and the state gets the updated table. -/
theorem updateLoginTimestamp_eq (username : String) (σ : DBState) :
    updateLoginTimestamp username σ =
      match (σ.users.filter (fun u => u.username == username)).head? with
      | none => .error (.expressError ("No such user: " ++ username) 404)
      | some y =>
          .ok ({ username := y.username, last_login_at := σ.now },
               { σ with users := updatedUsers username σ }) := by
  unfold updateLoginTimestamp
  rw [updatedUsers_filter, List.head?_map]
  cases (σ.users.filter (fun u => u.username == username)).head? <;> rfl

/-! The claims. -/

/-- Claim C1 counterexample: a successful register call returns an object
whose `password` field is exactly the stored bcrypt hash, because the
RETURNING list of the INSERT includes the `password` column.  This refutes
the claim that the returned value never contains the stored hash. -/
theorem c1_counterexample :
    register carolInput sampleState = .ok (carolResult, sampleStateWithCarol)
  ∧ carolResult.password = carolRow.password
  ∧ carolRow ∈ sampleStateWithCarol.users
  ∧ carolResult.password = bcryptHash carolInput.password := by
  refine ⟨rfl, rfl, by simp [sampleStateWithCarol], rfl⟩

/-- Claim C1 amended: every successful register call returns the created
profile fields together with the stored password hash under the `password`
key, never the plaintext password, and the inserted row stores that same
hash. -/
theorem c1_amended_register_returns_hash (inp : RegisterInput) (σ : DBState)
    (r : RegisterResult) (σ2 : DBState)
    (h : register inp σ = .ok (r, σ2)) :
    r.username = inp.username ∧ r.first_name = inp.first_name
  ∧ r.last_name = inp.last_name ∧ r.phone = inp.phone
  ∧ r.password = bcryptHash inp.password
  ∧ r.password ≠ inp.password
  ∧ ∃ row ∈ σ2.users, row.username = inp.username ∧
      row.password = r.password := by
  unfold register at h
  by_cases hc : σ.users.any (fun u => u.username == inp.username)
  · rw [if_pos hc] at h
    exact absurd h (by simp)
  · rw [if_neg hc] at h
    simp only [Except.ok.injEq, Prod.mk.injEq] at h
    obtain ⟨hr, hσ⟩ := h
    subst hr
    refine ⟨rfl, rfl, rfl, rfl, rfl, bcryptHash_ne inp.password, ?_⟩
    refine ⟨newUserRow inp σ, ?_, rfl, rfl⟩
    rw [← hσ]
    simp

/-- Claim C1 witness: the amended statement instantiated on registering
carol over the sample store. -/
theorem c1_witness :
    carolResult.password = bcryptHash carolInput.password
  ∧ carolResult.password ≠ carolInput.password
  ∧ ∃ row ∈ sampleStateWithCarol.users,
      row.username = carolInput.username ∧
      row.password = carolResult.password := by
  have h := c1_amended_register_returns_hash carolInput sampleState
    carolResult sampleStateWithCarol rfl
  exact ⟨h.2.2.2.2.1, h.2.2.2.2.2.1, h.2.2.2.2.2.2⟩

/-- Claim C2: the code contradicts its own doc comment (Returns boolean).
At the failing input (absent username, and also wrong password) the JS
function falls off the end and returns `undefined` (here `none`), not the
boolean `false`; it does return `true` on a match and never throws. -/
theorem c2_authenticate_returns_undefined :
    authenticate "carol" "x" sampleState = .ok (none, sampleState)
  ∧ authenticate "alice" "wrong" sampleState = .ok (none, sampleState)
  ∧ authenticate "alice" "secret1" sampleState = .ok (some true, sampleState)
  ∧ (none : Option Bool) ≠ some false := by
  refine ⟨rfl, rfl, rfl, by simp⟩

/-- Claim C3: the code contradicts its own throw statement.  The guard of
GetAll tests `!rows` on the rows array, which is truthy even when empty,
so on an empty store the call returns the empty sequence instead of the
intended 404 No users error. -/
theorem c3_all_empty_store :
    all emptyState = .ok ([], emptyState)
  ∧ jsArrayFalsy ([] : List PublicProfile) = false := by
  refine ⟨rfl, rfl⟩

/-- Claim C4 counterexample: registering with an empty username and an
empty password succeeds and inserts a row; no ValidationError is raised.
This refutes the claim that such calls fail. -/
theorem c4_counterexample :
    register emptyInput emptyState = .ok (emptyRegResult, emptyRegState)
  ∧ emptyInput.username = "" ∧ emptyInput.password = ""
  ∧ emptyRegState.users.length = 1 := ⟨rfl, rfl, rfl, rfl⟩

/-- Claim C4 amended: register performs no input validation at all; every
call whose username is not already taken, including one with an empty
username or empty password, succeeds and appends exactly one user row. -/
theorem c4_amended_register_no_validation (inp : RegisterInput) (σ : DBState)
    (h : σ.users.any (fun u => u.username == inp.username) = false) :
    ∃ r σ2, register inp σ = .ok (r, σ2)
      ∧ σ2.users.length = σ.users.length + 1
      ∧ ∃ row ∈ σ2.users, row.username = inp.username := by
  refine ⟨{ username := inp.username, password := bcryptHash inp.password,
            first_name := inp.first_name, last_name := inp.last_name,
            phone := inp.phone },
          { σ with users := σ.users ++ [newUserRow inp σ] }, ?_, ?_, ?_⟩
  · unfold register
    rw [if_neg (by simp [h])]
  · simp
  · exact ⟨newUserRow inp σ, by simp, rfl⟩

/-- Claim C4 witness: the amended statement instantiated on the empty
input over the empty store. -/
theorem c4_witness :
    ∃ r σ2, register emptyInput emptyState = .ok (r, σ2)
      ∧ σ2.users.length = emptyState.users.length + 1
      ∧ ∃ row ∈ σ2.users, row.username = emptyInput.username :=
  c4_amended_register_no_validation emptyInput emptyState rfl

/-- Claim C9: messagesFrom, messagesTo and authenticate are read-only: the
store state after any of these calls equals the state before it, so every
user row and every message row (in particular every readAt field) is
unchanged. -/
theorem c9_queries_read_only (u p : String) (σ : DBState) :
    stateAfter (messagesFrom u σ) σ = σ
  ∧ stateAfter (messagesTo u σ) σ = σ
  ∧ stateAfter (authenticate u p σ) σ = σ := by
  refine ⟨?_, ?_, ?_⟩
  · unfold messagesFrom
    cases (messagesFromRows u σ).head? <;> rfl
  · unfold messagesTo
    cases (messagesToRows u σ).head? <;> rfl
  · unfold authenticate
    cases (σ.users.filter (fun x => x.username == u)).head? with
    | none => rfl
    | some user =>
        cases h : bcryptCompare p user.password <;> simp [h, stateAfter]

/-- Claim C5: under the foreign-key invariant, messagesFrom(u) throws its
No messages 404 exactly when no stored message has fromUsername = u, and
symmetrically messagesTo(u) exactly when none has toUsername = u;
otherwise each returns a nonempty sequence with the state unchanged. -/
theorem c5_noMessages_iff (u : String) (σ : DBState) (hfk : fkOk σ) :
    (messagesFrom u σ =
        .error (.expressError ("No messages from this user: " ++ u) 404) ↔
      σ.messages.filter (fun m => m.from_username == u) = [])
  ∧ (messagesTo u σ =
        .error (.expressError ("No messages to this user: " ++ u) 404) ↔
      σ.messages.filter (fun m => m.to_username == u) = [])
  ∧ (σ.messages.filter (fun m => m.from_username == u) ≠ [] →
      ∃ l, messagesFrom u σ = .ok (l, σ) ∧ l ≠ [])
  ∧ (σ.messages.filter (fun m => m.to_username == u) ≠ [] →
      ∃ l, messagesTo u σ = .ok (l, σ) ∧ l ≠ []) := by
  refine ⟨(messagesFrom_error_iff u σ).trans (messagesFromRows_nil_iff u σ hfk),
          (messagesTo_error_iff u σ).trans (messagesToRows_nil_iff u σ hfk),
          ?_, ?_⟩
  · intro hne
    have hr : messagesFromRows u σ ≠ [] := fun hnil =>
      hne ((messagesFromRows_nil_iff u σ hfk).mp hnil)
    exact ⟨_, messagesFrom_ok_of_ne_nil hr, by simpa using hr⟩
  · intro hne
    have hr : messagesToRows u σ ≠ [] := fun hnil =>
      hne ((messagesToRows_nil_iff u σ hfk).mp hnil)
    exact ⟨_, messagesTo_ok_of_ne_nil hr, by simpa using hr⟩

/-- Claim C5 witness: in the sample store alice has sent one message and
received none; the theorem instantiated there. -/
theorem c5_witness :
    messagesTo "alice" sampleState =
      .error (.expressError ("No messages to this user: " ++ "alice") 404)
  ∧ ∃ l, messagesFrom "alice" sampleState = .ok (l, sampleState) ∧
      l ≠ [] := by
  have h := c5_noMessages_iff "alice" sampleState (by decide)
  exact ⟨h.2.1.mpr (by decide), h.2.2.1 (by decide)⟩

/-- Claim C10: for a username absent from the store (foreign keys intact),
messagesFrom and messagesTo throw exactly the same No messages 404 errors
that an existing user with no sent or received messages gets; no
UserNotFound-style error distinguishes the nonexistent user. -/
theorem c10_nonexistent_user_no_messages (u : String) (σ : DBState)
    (hfk : fkOk σ) (habsent : ∀ r ∈ σ.users, r.username ≠ u) :
    messagesFrom u σ =
      .error (.expressError ("No messages from this user: " ++ u) 404)
  ∧ messagesTo u σ =
      .error (.expressError ("No messages to this user: " ++ u) 404) := by
  have h1 : σ.messages.filter (fun m => m.from_username == u) = [] := by
    rw [List.filter_eq_nil_iff]
    intro m hm hmu
    obtain ⟨⟨f, hfm, hfe⟩, -⟩ := hfk m hm
    exact habsent f hfm (hfe.trans (by simpa using hmu))
  have h2 : σ.messages.filter (fun m => m.to_username == u) = [] := by
    rw [List.filter_eq_nil_iff]
    intro m hm hmu
    obtain ⟨-, ⟨t, htm, hte⟩⟩ := hfk m hm
    exact habsent t htm (hte.trans (by simpa using hmu))
  exact ⟨(messagesFrom_error_iff u σ).mpr
           ((messagesFromRows_nil_iff u σ hfk).mpr h1),
         (messagesTo_error_iff u σ).mpr
           ((messagesToRows_nil_iff u σ hfk).mpr h2)⟩

/-- Claim C10 witness: carol does not exist in the sample store, and both
queries throw their No messages 404 for her. -/
theorem c10_witness :
    messagesFrom "carol" sampleState =
      .error (.expressError ("No messages from this user: " ++ "carol") 404)
  ∧ messagesTo "carol" sampleState =
      .error (.expressError ("No messages to this user: " ++ "carol") 404) :=
  c10_nonexistent_user_no_messages "carol" sampleState (by decide) (by decide)

/-- Claim C7: Get throws No such user 404 exactly when the username is
absent; for an existing user (usernames unique) it returns exactly the
stored profile columns, and the result type has no password field. -/
theorem c7_get_spec (username : String) (σ : DBState)
    (huniq : ∀ u1 ∈ σ.users, ∀ u2 ∈ σ.users,
      u1.username = u2.username → u1 = u2) :
    (get username σ =
        .error (.expressError ("No such user: " ++ username) 404) ↔
      ∀ u ∈ σ.users, u.username ≠ username)
  ∧ ∀ u ∈ σ.users, u.username = username →
      get username σ =
        .ok ({ username := u.username, first_name := u.first_name,
               last_name := u.last_name, phone := u.phone,
               join_at := u.join_at, last_login_at := u.last_login_at },
             σ) := by
  unfold get
  cases hf : σ.users.filter (fun x => x.username == username) with
  | nil =>
      have hall : ∀ u ∈ σ.users, u.username ≠ username := by
        intro u hu he
        have hmem : u ∈ σ.users.filter (fun x => x.username == username) :=
          List.mem_filter.mpr ⟨hu, by simp [he]⟩
        rw [hf] at hmem
        exact absurd hmem (List.not_mem_nil u)
      refine ⟨⟨fun _ => hall, fun _ => rfl⟩, ?_⟩
      intro u hu he
      exact absurd he (hall u hu)
  | cons y ys =>
      have hy : y ∈ σ.users ∧ y.username = username := by
        have hmem : y ∈ σ.users.filter (fun x => x.username == username) := by
          rw [hf]
          exact List.mem_cons_self y ys
        have h2 := List.mem_filter.mp hmem
        exact ⟨h2.1, by simpa using h2.2⟩
      constructor
      · constructor
        · intro h
          exact Except.noConfusion h
        · intro hall
          exact absurd hy.2 (hall y hy.1)
      · intro u hu he
        have heq : y = u := huniq y hy.1 u hu (hy.2.trans he.symm)
        rw [heq]
        rfl

/-- Claim C7 witness: instantiated on the sample store for alice (present)
and carol (absent). -/
theorem c7_witness :
    get "carol" sampleState =
      .error (.expressError ("No such user: " ++ "carol") 404)
  ∧ get "alice" sampleState =
      .ok ({ username := "alice", first_name := "Alice", last_name := "Ames",
             phone := "555-0001", join_at := 1, last_login_at := 3 },
           sampleState) := by
  have h := c7_get_spec "carol" sampleState (by decide)
  have h2 := c7_get_spec "alice" sampleState (by decide)
  exact ⟨h.1.mpr (by decide), h2.2 aliceRow (by decide) rfl⟩

/-- Claim C6: TouchLogin throws No such user 404 exactly when the username
is absent; when present it stamps last_login_at with the clock value
(hence at or above any old value the clock has reached), returns the
username and new last_login_at, and a second call with no intervening
authentication still succeeds. -/
theorem c6_touchLogin_spec (username : String) (σ : DBState) :
    (updateLoginTimestamp username σ =
        .error (.expressError ("No such user: " ++ username) 404) ↔
      ∀ u ∈ σ.users, u.username ≠ username)
  ∧ ∀ stamp σ2, updateLoginTimestamp username σ = .ok (stamp, σ2) →
      stamp.username = username ∧ stamp.last_login_at = σ.now
      ∧ (∀ u ∈ σ.users, u.username = username → u.last_login_at ≤ σ.now →
           u.last_login_at ≤ stamp.last_login_at)
      ∧ (∀ u ∈ σ2.users, u.username = username → u.last_login_at = σ.now)
      ∧ ∃ stamp2 σ3, updateLoginTimestamp username σ2 = .ok (stamp2, σ3) := by
  rw [updateLoginTimestamp_eq]
  cases hf : σ.users.filter (fun x => x.username == username) with
  | nil =>
      have hall : ∀ u ∈ σ.users, u.username ≠ username := by
        intro u hu he
        have hmem : u ∈ σ.users.filter (fun x => x.username == username) :=
          List.mem_filter.mpr ⟨hu, by simp [he]⟩
        rw [hf] at hmem
        exact absurd hmem (List.not_mem_nil u)
      refine ⟨⟨fun _ => hall, fun _ => rfl⟩, ?_⟩
      intro stamp σ2 h
      exact Except.noConfusion h
  | cons y ys =>
      have hy : y ∈ σ.users ∧ y.username = username := by
        have hmem : y ∈ σ.users.filter (fun x => x.username == username) := by
          rw [hf]
          exact List.mem_cons_self y ys
        have h2 := List.mem_filter.mp hmem
        exact ⟨h2.1, by simpa using h2.2⟩
      constructor
      · constructor
        · intro h
          exact Except.noConfusion h
        · intro hall
          exact absurd hy.2 (hall y hy.1)
      · intro stamp σ2 h
        simp only [List.head?_cons, Except.ok.injEq, Prod.mk.injEq] at h
        obtain ⟨hs, hσ2⟩ := h
        subst hs
        subst hσ2
        refine ⟨hy.2, rfl, ?_, ?_, ?_⟩
        · intro u _ _ hle
          exact hle
        · intro u hu hue
          have hu2 : u ∈ updatedUsers username σ := hu
          rw [updatedUsers, List.mem_map] at hu2
          obtain ⟨u0, _, heq⟩ := hu2
          by_cases hc : (u0.username == username) = true
          · rw [if_pos hc] at heq
            rw [← heq]
          · rw [if_neg hc] at heq
            subst heq
            exact absurd hue (by simpa using hc)
        · have hfil : ({ σ with users := updatedUsers username σ } :
                DBState).users.filter (fun x => x.username == username) =
              (σ.users.filter (fun x => x.username == username)).map
                (fun u => { u with last_login_at := σ.now }) :=
            updatedUsers_filter username σ
          rw [updateLoginTimestamp_eq, hfil, hf, List.map_cons]
          exact ⟨_, _, rfl⟩

/-- Claim C6 witness: touching alice in the sample store (clock 5, old
stamp 3) and touching her again right after. -/
theorem c6_witness :
    ({ username := "alice", last_login_at := 5 } :
        LoginStamp).last_login_at = sampleState.now
  ∧ aliceRow.last_login_at ≤
      ({ username := "alice", last_login_at := 5 } : LoginStamp).last_login_at
  ∧ ∃ stamp2 σ3,
      updateLoginTimestamp "alice" sampleStateTouched = .ok (stamp2, σ3) := by
  have h := (c6_touchLogin_spec "alice" sampleState).2
    { username := "alice", last_login_at := 5 } sampleStateTouched rfl
  exact ⟨h.2.1, h.2.2.1 aliceRow (by decide) rfl (by decide), h.2.2.2.2⟩

/-- Claim C8: a stored message from A to B (both users present, message
ids unique) appears in messagesFrom(A) with to_user equal to the public
profile of B, appears in messagesTo(B) with from_user equal to the public
profile of A, and appears in the messagesFrom or messagesTo result of no other user or messagesTo
result. -/
theorem c8_message_placement (σ : DBState) (m : MessageRow) (a b : UserRow)
    (hm : m ∈ σ.messages) (ha : a ∈ σ.users) (hb : b ∈ σ.users)
    (hma : m.from_username = a.username) (hmb : m.to_username = b.username)
    (hids : ∀ m1 ∈ σ.messages, ∀ m2 ∈ σ.messages, m1.id = m2.id → m1 = m2) :
    (∃ l, messagesFrom a.username σ = .ok (l, σ) ∧
       ∃ e ∈ l, e.id = m.id ∧ e.to_user = publicProfileOf b)
  ∧ (∃ l, messagesTo b.username σ = .ok (l, σ) ∧
       ∃ e ∈ l, e.id = m.id ∧ e.from_user = publicProfileOf a)
  ∧ (∀ c : String, c ≠ a.username → ∀ l σ2,
       messagesFrom c σ = .ok (l, σ2) → ∀ e ∈ l, e.id ≠ m.id)
  ∧ (∀ d : String, d ≠ b.username → ∀ l σ2,
       messagesTo d σ = .ok (l, σ2) → ∀ e ∈ l, e.id ≠ m.id) := by
  have hmemF := mkFromRow_mem σ m a b hm ha hb hma hmb
  rw [hma] at hmemF
  have hmemT := mkToRow_mem σ m a b hm ha hb hma hmb
  rw [hmb] at hmemT
  refine ⟨?_, ?_, ?_, ?_⟩
  · refine ⟨_, messagesFrom_ok_of_ne_nil (List.ne_nil_of_mem hmemF), ?_⟩
    exact ⟨sentOfRow (mkFromRow m b), List.mem_map.mpr ⟨_, hmemF, rfl⟩,
           rfl, rfl⟩
  · refine ⟨_, messagesTo_ok_of_ne_nil (List.ne_nil_of_mem hmemT), ?_⟩
    exact ⟨receivedOfRow (mkToRow m a), List.mem_map.mpr ⟨_, hmemT, rfl⟩,
           rfl, rfl⟩
  · intro c hc l σ2 hok e he hid
    obtain ⟨hl, -⟩ := messagesFrom_ok_elim hok
    subst hl
    rw [List.mem_map] at he
    obtain ⟨r, hr, rfl⟩ := he
    obtain ⟨m2, hm2, hm2c, hm2id⟩ := mem_messagesFromRows_elim hr
    have hrid : r.id = m.id := hid
    have hm2m : m2 = m := hids m2 hm2 m hm (by rw [← hm2id]; exact hrid)
    have hmc : m.from_username = c := hm2m ▸ hm2c
    exact hc (hmc.symm.trans hma)
  · intro d hd l σ2 hok e he hid
    obtain ⟨hl, -⟩ := messagesTo_ok_elim hok
    subst hl
    rw [List.mem_map] at he
    obtain ⟨r, hr, rfl⟩ := he
    obtain ⟨m2, hm2, hm2d, hm2id⟩ := mem_messagesToRows_elim hr
    have hrid : r.id = m.id := hid
    have hm2m : m2 = m := hids m2 hm2 m hm (by rw [← hm2id]; exact hrid)
    have hmd : m.to_username = d := hm2m ▸ hm2d
    exact hd (hmd.symm.trans hmb)

/-- Claim C8 witness: instantiated on the sample store and its single
message from alice to bob. -/
theorem c8_witness :
    (∃ l, messagesFrom aliceRow.username sampleState = .ok (l, sampleState) ∧
       ∃ e ∈ l, e.id = msg1.id ∧ e.to_user = publicProfileOf bobRow)
  ∧ ∃ l, messagesTo bobRow.username sampleState = .ok (l, sampleState) ∧
       ∃ e ∈ l, e.id = msg1.id ∧ e.from_user = publicProfileOf aliceRow := by
  have h := c8_message_placement sampleState msg1 aliceRow bobRow
    (by decide) (by decide) (by decide) (by decide) (by decide) (by decide)
  exact ⟨h.1, h.2.1⟩

end Messagely
